import Mathlib

/-!
A shallow embedding of `src/duration.ts` (class `Duration`) from the
SimpleDuration repository.

JavaScript numbers are modelled as exact rationals extended with positive
infinity (`JSNum`): the code stores `Number.POSITIVE_INFINITY` in the
`milliseconds` field of a forever duration, and uses `Number.MAX_VALUE`
as the effective magnitude of a forever operand in `between`.  Negative
infinity and NaN never arise on the code paths embedded here.

Failures raised through the `Check` helpers of `@awkewainze/checkverify`
are modelled with `Except DurErr`: `Check.verifyNotNegative`,
`Check.verifyPositive`, `Check.verifyNotNullOrUndefined` and the
`instanceof` verifications raise `InvalidArgument`-style errors, while the
`Check.verify(!this.forever, ...)` guards of the `to*` accessors raise the
illegal-state (`invalidOperation`) error.  Null/undefined and wrong-type
arguments cannot be expressed in the typed embedding, so the corresponding
checks always pass.

The random source consulted by `between` (`Math.random()`) is made an
explicit parameter `r`, the draw in `[0, 1)`; `Math.floor` is `Int.floor`.
-/

deriving instance DecidableEq for Except

/-- A JavaScript number as it occurs in this program: a finite value
(exact rational) or `Number.POSITIVE_INFINITY`. -/
inductive JSNum where
  | fin : ℚ → JSNum
  | posInf : JSNum
deriving DecidableEq, Repr

namespace JSNum

/-- JS `+` on the values this program produces: `Infinity + x = Infinity`. -/
def add : JSNum → JSNum → JSNum
  | fin a, fin b => fin (a + b)
  | _, _ => posInf

/-- JS `-` as used in `between` (`right - left`); both operands there are
finite, the remaining cases are unreachable in this program. -/
def sub : JSNum → JSNum → JSNum
  | fin a, fin b => fin (a - b)
  | _, _ => posInf

/-- JS `*` by a finite scalar, as used by the factories (`seconds * 1000`,
`minutes * 60`, ...) and by `multiply` (`this.milliseconds * times`); at
`posInf` the scalar is strictly positive on every code path, where JS
yields `Infinity`. -/
def mul : JSNum → ℚ → JSNum
  | fin a, t => fin (a * t)
  | posInf, _ => posInf

/-- JS `/` by a positive constant, as used by the `to*` accessors
(`/ 1000`, `/ 60`, `/ 24`). -/
def div : JSNum → ℚ → JSNum
  | fin a, c => fin (a / c)
  | posInf, _ => posInf

/-- JS `<` on the values this program produces. -/
def lt : JSNum → JSNum → Bool
  | fin a, fin b => a < b
  | fin _, posInf => true
  | posInf, _ => false

/-- JS `value < 0`, the test performed by `Check.verifyNotNegative`. -/
def isNeg : JSNum → Bool
  | fin a => a < 0
  | posInf => false

end JSNum

/-- `Number.MAX_VALUE`, the largest finite IEEE-754 double. -/
def maxValue : ℚ := (2 ^ 53 - 1) * 2 ^ 971

/-- The two error kinds of the spec: `invalidArgument` for the argument
validations, `invalidOperation` for the illegal-state guards of the `to*`
accessors. -/
inductive DurErr where
  | invalidArgument : DurErr
  | invalidOperation : DurErr
deriving DecidableEq, Repr

/-- The `Duration` value object: the private fields `milliseconds` and
`forever` (here `foreverFlag`, since the factory `Duration.forever` needs
the source name). -/
structure Duration where
  milliseconds : JSNum
  foreverFlag : Bool
deriving DecidableEq, Repr

namespace Duration

/-- The private constructor (duration.ts lines 13-17): if the forever flag
is set, the stored magnitude is overwritten with `POSITIVE_INFINITY`. -/
def ctor (ms : JSNum) (forever : Bool) : Duration :=
  if forever then ⟨JSNum.posInf, true⟩ else ⟨ms, false⟩

/-- `toMilliseconds()` (lines 22-25). -/
def toMilliseconds (d : Duration) : Except DurErr JSNum :=
  if d.foreverFlag then .error .invalidOperation else .ok d.milliseconds

/-- `toSeconds()` (lines 30-33): `this.milliseconds / 1000`. -/
def toSeconds (d : Duration) : Except DurErr JSNum :=
  if d.foreverFlag then .error .invalidOperation
  else .ok (d.milliseconds.div 1000)

/-- `toMinutes()` (lines 38-41): `this.toSeconds() / 60`. -/
def toMinutes (d : Duration) : Except DurErr JSNum :=
  if d.foreverFlag then .error .invalidOperation
  else d.toSeconds.map (fun s => s.div 60)

/-- `toHours()` (lines 46-49): `this.toMinutes() / 60`. -/
def toHours (d : Duration) : Except DurErr JSNum :=
  if d.foreverFlag then .error .invalidOperation
  else d.toMinutes.map (fun m => m.div 60)

/-- `toDays()` (lines 54-57): `this.toHours() / 24`. -/
def toDays (d : Duration) : Except DurErr JSNum :=
  if d.foreverFlag then .error .invalidOperation
  else d.toHours.map (fun h => h.div 24)

/-- `isForever()` (lines 62-64). -/
def isForever (d : Duration) : Bool :=
  d.foreverFlag

/-- `add(duration)` (lines 70-74): the null/instanceof checks always pass
in the typed embedding; the argument's magnitude is obtained through its
`toMilliseconds()` accessor, whose failure propagates. -/
def add (x duration : Duration) : Except DurErr Duration :=
  duration.toMilliseconds.map fun ms =>
    ctor (x.milliseconds.add ms) (x.foreverFlag || duration.foreverFlag)

/-- `multiply(times)` (lines 80-83): `Check.verifyPositive(times)` then
`new Duration(this.milliseconds * times, this.forever)`. -/
def multiply (d : Duration) (times : ℚ) : Except DurErr Duration :=
  if 0 < times then .ok (ctor (d.milliseconds.mul times) d.foreverFlag)
  else .error .invalidArgument

/-- `fromMilliseconds(milliseconds)` (lines 89-92). -/
def fromMilliseconds (milliseconds : JSNum) : Except DurErr Duration :=
  if milliseconds.isNeg then .error .invalidArgument
  else .ok (ctor milliseconds false)

/-- `fromSeconds(seconds)` (lines 98-101): `new Duration(seconds * 1000)`. -/
def fromSeconds (seconds : JSNum) : Except DurErr Duration :=
  if seconds.isNeg then .error .invalidArgument
  else .ok (ctor (seconds.mul 1000) false)

/-- `fromMinutes(minutes)` (lines 107-110): delegates to
`fromSeconds(minutes * 60)` after its own negativity check. -/
def fromMinutes (minutes : JSNum) : Except DurErr Duration :=
  if minutes.isNeg then .error .invalidArgument
  else fromSeconds (minutes.mul 60)

/-- `fromHours(hours)` (lines 116-119): delegates to
`fromMinutes(hours * 60)`. -/
def fromHours (hours : JSNum) : Except DurErr Duration :=
  if hours.isNeg then .error .invalidArgument
  else fromMinutes (hours.mul 60)

/-- `fromDays(days)` (lines 125-128): delegates to `fromHours(days * 24)`. -/
def fromDays (days : JSNum) : Except DurErr Duration :=
  if days.isNeg then .error .invalidArgument
  else fromHours (days.mul 24)

/-- `forever()` (lines 133-135): `new Duration(Number.MAX_VALUE, true)`;
the constructor overwrites the magnitude with positive infinity. -/
def forever : Duration :=
  ctor (JSNum.fin maxValue) true

/-- `randInt(max)` (lines 162-164): `Math.floor(Math.random() * max)`,
with the draw `r` of `Math.random()` made explicit; `max` is finite on
every reachable call. -/
def randInt (r : ℚ) (max : JSNum) : JSNum :=
  match max with
  | .fin m => .fin ((⌊r * m⌋ : ℤ) : ℚ)
  | .posInf => .posInf

/-- The effective magnitude a `between` operand contributes (lines
149-150): `x.isForever() ? Number.MAX_VALUE : x.toMilliseconds()`; the
ternary guard makes the accessor's check pass, so it is the field. -/
def effectiveMagnitude (d : Duration) : JSNum :=
  if d.isForever then .fin maxValue else d.milliseconds

/-- `between(a, b)` (lines 142-160): the null/instanceof checks always
pass in the typed embedding; `r` is the `Math.random()` draw used by the
single `randInt` call of the taken branch. -/
def between (a b : Duration) (r : ℚ) : Except DurErr Duration :=
  if a.isForever && b.isForever then .ok forever
  else
    let left := a.effectiveMagnitude
    let right := b.effectiveMagnitude
    if left.lt right then fromMilliseconds ((randInt r (right.sub left)).add left)
    else if right.lt left then fromMilliseconds ((randInt r (left.sub right)).add right)
    else .ok a

/-- The invariant of the spec's data model: a forever duration stores
positive infinity; a finite duration stores a finite non-negative
magnitude. -/
def valid (d : Duration) : Prop :=
  if d.foreverFlag then d.milliseconds = JSNum.posInf
  else ∃ q : ℚ, d.milliseconds = JSNum.fin q ∧ 0 ≤ q

end Duration

/-- The durations reachable through the public factories and operations,
with numeric user inputs ranging over the (finite) reals of the spec's
data model and the random draw of `between` unconstrained. -/
inductive Reachable : Duration → Prop where
  | fromMilliseconds (x : ℚ) (d : Duration) :
      Duration.fromMilliseconds (.fin x) = .ok d → Reachable d
  | fromSeconds (x : ℚ) (d : Duration) :
      Duration.fromSeconds (.fin x) = .ok d → Reachable d
  | fromMinutes (x : ℚ) (d : Duration) :
      Duration.fromMinutes (.fin x) = .ok d → Reachable d
  | fromHours (x : ℚ) (d : Duration) :
      Duration.fromHours (.fin x) = .ok d → Reachable d
  | fromDays (x : ℚ) (d : Duration) :
      Duration.fromDays (.fin x) = .ok d → Reachable d
  | forever : Reachable Duration.forever
  | add (x y d : Duration) :
      Reachable x → Reachable y → x.add y = .ok d → Reachable d
  | multiply (x : Duration) (t : ℚ) (d : Duration) :
      Reachable x → x.multiply t = .ok d → Reachable d
  | between (a b : Duration) (r : ℚ) (d : Duration) :
      Reachable a → Reachable b → Duration.between a b r = .ok d → Reachable d

/-! ### Helper lemmas -/

theorem JSNum.lt_self (n : JSNum) : n.lt n = false := by
  cases n <;> simp [JSNum.lt]

theorem Duration.ctor_foreverFlag (ms : JSNum) (f : Bool) :
    (Duration.ctor ms f).foreverFlag = f := by
  cases f <;> simp [Duration.ctor]

theorem Duration.ctor_true_valid (ms : JSNum) : (Duration.ctor ms true).valid := by
  simp [Duration.ctor, Duration.valid]

theorem Duration.forever_foreverFlag : Duration.forever.foreverFlag = true := rfl

theorem Duration.forever_valid : Duration.forever.valid :=
  Duration.ctor_true_valid _

theorem Duration.fromMilliseconds_fin (x : ℚ) (h : 0 ≤ x) :
    Duration.fromMilliseconds (.fin x) = .ok ⟨.fin x, false⟩ := by
  simp [Duration.fromMilliseconds, JSNum.isNeg, not_lt.2 h, Duration.ctor]

theorem Duration.fromSeconds_fin (x : ℚ) (h : 0 ≤ x) :
    Duration.fromSeconds (.fin x) = .ok ⟨.fin (x * 1000), false⟩ := by
  simp [Duration.fromSeconds, JSNum.isNeg, not_lt.2 h, Duration.ctor, JSNum.mul]

theorem Duration.fromMinutes_fin (x : ℚ) (h : 0 ≤ x) :
    Duration.fromMinutes (.fin x) = .ok ⟨.fin (x * 60 * 1000), false⟩ := by
  rw [Duration.fromMinutes, if_neg (by simp [JSNum.isNeg, not_lt.2 h])]
  simpa [JSNum.mul] using Duration.fromSeconds_fin (x * 60) (by positivity)

theorem Duration.fromHours_fin (x : ℚ) (h : 0 ≤ x) :
    Duration.fromHours (.fin x) = .ok ⟨.fin (x * 60 * 60 * 1000), false⟩ := by
  rw [Duration.fromHours, if_neg (by simp [JSNum.isNeg, not_lt.2 h])]
  simpa [JSNum.mul] using Duration.fromMinutes_fin (x * 60) (by positivity)

theorem Duration.fromDays_fin (x : ℚ) (h : 0 ≤ x) :
    Duration.fromDays (.fin x) = .ok ⟨.fin (x * 24 * 60 * 60 * 1000), false⟩ := by
  rw [Duration.fromDays, if_neg (by simp [JSNum.isNeg, not_lt.2 h])]
  simpa [JSNum.mul] using Duration.fromHours_fin (x * 24) (by positivity)

/-! ### Claim theorems -/

/-- C5: for every negative input each of the five factories
(`fromMilliseconds`, `fromSeconds`, `fromMinutes`, `fromHours`,
`fromDays`) raises `InvalidArgument`, and for every non-negative input
none of them raises. -/
theorem C5_factory_negative_inputs (x : ℚ) :
    (x < 0 →
      Duration.fromMilliseconds (.fin x) = .error .invalidArgument ∧
      Duration.fromSeconds (.fin x) = .error .invalidArgument ∧
      Duration.fromMinutes (.fin x) = .error .invalidArgument ∧
      Duration.fromHours (.fin x) = .error .invalidArgument ∧
      Duration.fromDays (.fin x) = .error .invalidArgument) ∧
    (0 ≤ x →
      (∃ d, Duration.fromMilliseconds (.fin x) = .ok d) ∧
      (∃ d, Duration.fromSeconds (.fin x) = .ok d) ∧
      (∃ d, Duration.fromMinutes (.fin x) = .ok d) ∧
      (∃ d, Duration.fromHours (.fin x) = .ok d) ∧
      (∃ d, Duration.fromDays (.fin x) = .ok d)) := by
  constructor
  · intro h
    refine ⟨?_, ?_, ?_, ?_, ?_⟩ <;>
      simp [Duration.fromMilliseconds, Duration.fromSeconds, Duration.fromMinutes,
        Duration.fromHours, Duration.fromDays, JSNum.isNeg, h]
  · intro h
    exact ⟨⟨_, Duration.fromMilliseconds_fin x h⟩, ⟨_, Duration.fromSeconds_fin x h⟩,
      ⟨_, Duration.fromMinutes_fin x h⟩, ⟨_, Duration.fromHours_fin x h⟩,
      ⟨_, Duration.fromDays_fin x h⟩⟩

/-- C5 witness: at `x = -1` every factory raises `InvalidArgument`, and at
`x = 1` every factory succeeds. -/
theorem C5_factory_negative_inputs_witness :
    Duration.fromMilliseconds (.fin (-1)) = .error .invalidArgument ∧
    (∃ d, Duration.fromDays (.fin 1) = .ok d) :=
  ⟨((C5_factory_negative_inputs (-1)).1 (by decide)).1,
    (((C5_factory_negative_inputs 1).2 (by decide)).2.2.2.2)⟩

/-- C6: every conversion accessor raises the illegal-state error on a
Duration whose forever flag is set, while `isForever` (a total function
in this embedding, hence never failing) returns `true` on it; on a
non-forever Duration no accessor raises. -/
theorem C6_forever_accessors (d : Duration) :
    (d.isForever = true →
      d.toMilliseconds = .error .invalidOperation ∧
      d.toSeconds = .error .invalidOperation ∧
      d.toMinutes = .error .invalidOperation ∧
      d.toHours = .error .invalidOperation ∧
      d.toDays = .error .invalidOperation) ∧
    (d.isForever = false →
      (∃ v, d.toMilliseconds = .ok v) ∧
      (∃ v, d.toSeconds = .ok v) ∧
      (∃ v, d.toMinutes = .ok v) ∧
      (∃ v, d.toHours = .ok v) ∧
      (∃ v, d.toDays = .ok v)) := by
  constructor
  · intro h
    rw [Duration.isForever] at h
    refine ⟨?_, ?_, ?_, ?_, ?_⟩ <;>
      simp [Duration.toMilliseconds, Duration.toSeconds, Duration.toMinutes,
        Duration.toHours, Duration.toDays, h]
  · intro h
    rw [Duration.isForever] at h
    refine ⟨⟨d.milliseconds, ?_⟩, ⟨d.milliseconds.div 1000, ?_⟩,
        ⟨(d.milliseconds.div 1000).div 60, ?_⟩,
        ⟨((d.milliseconds.div 1000).div 60).div 60, ?_⟩,
        ⟨(((d.milliseconds.div 1000).div 60).div 60).div 24, ?_⟩⟩ <;>
      simp [Duration.toMilliseconds, Duration.toSeconds, Duration.toMinutes,
        Duration.toHours, Duration.toDays, h, Except.map]

/-- C6 witness: `forever()` has `isForever() == true`, its
`toMilliseconds` raises the illegal-state error, and a finite duration's
`toDays` succeeds. -/
theorem C6_forever_accessors_witness :
    Duration.forever.isForever = true ∧
    Duration.forever.toMilliseconds = .error .invalidOperation ∧
    (∃ v, (⟨.fin 6, false⟩ : Duration).toDays = .ok v) :=
  ⟨rfl, ((C6_forever_accessors Duration.forever).1 rfl).1,
    ((C6_forever_accessors ⟨.fin 6, false⟩).2 rfl).2.2.2.2⟩

/-- C7: `multiply(factor)` raises `InvalidArgument` exactly when the
factor is not strictly positive; for a strictly positive factor it
returns the Duration built by the constructor from this magnitude times
the factor and the unchanged forever flag (so the result's forever flag
equals the receiver's). -/
theorem C7_multiply (d : Duration) (t : ℚ) :
    (t ≤ 0 → d.multiply t = .error .invalidArgument) ∧
    (0 < t →
      d.multiply t = .ok (Duration.ctor (d.milliseconds.mul t) d.foreverFlag) ∧
      (d.multiply t).map Duration.isForever = .ok d.isForever) := by
  constructor
  · intro h
    simp [Duration.multiply, not_lt.2 h]
  · intro h
    refine ⟨by simp [Duration.multiply, h], ?_⟩
    simp [Duration.multiply, h, Except.map, Duration.isForever,
      Duration.ctor_foreverFlag]

/-- C7 witness: `multiply 0` and `multiply (-1)` raise `InvalidArgument`;
`fromSeconds(2)`-like data multiplied by `3` succeeds with the flag
preserved. -/
theorem C7_multiply_witness :
    (⟨.fin 2000, false⟩ : Duration).multiply 0 = .error .invalidArgument ∧
    (⟨.fin 2000, false⟩ : Duration).multiply (-1) = .error .invalidArgument ∧
    (⟨.fin 2000, false⟩ : Duration).multiply 3 =
      .ok (Duration.ctor ((JSNum.fin 2000).mul 3) false) :=
  ⟨(C7_multiply ⟨.fin 2000, false⟩ 0).1 (by decide),
    (C7_multiply ⟨.fin 2000, false⟩ (-1)).1 (by decide),
    ((C7_multiply ⟨.fin 2000, false⟩ 3).2 (by decide)).1⟩

/-- C9: `between(forever(), forever())` returns `forever()` for every
possible draw of the random source (so the source is never consulted),
and that result has `isForever() == true`. -/
theorem C9_between_both_forever (r : ℚ) :
    Duration.between Duration.forever Duration.forever r = .ok Duration.forever ∧
    Duration.forever.isForever = true := by
  refine ⟨?_, rfl⟩
  simp [Duration.between, Duration.isForever, Duration.forever, Duration.ctor]

/-- C4: each factory stores the input scaled to milliseconds by its
unit's factor, `fromMilliseconds` round-trips through `toMilliseconds`
exactly, and the unit chain holds exactly in rational arithmetic:
minutes-to-seconds, hours-to-minutes and days-to-hours. -/
theorem C4_unit_factors (x : ℚ) (h : 0 ≤ x) :
    Duration.fromMilliseconds (.fin x) = .ok ⟨.fin x, false⟩ ∧
    Duration.fromSeconds (.fin x) = .ok ⟨.fin (x * 1000), false⟩ ∧
    Duration.fromMinutes (.fin x) = .ok ⟨.fin (x * 60 * 1000), false⟩ ∧
    Duration.fromHours (.fin x) = .ok ⟨.fin (x * 3600 * 1000), false⟩ ∧
    Duration.fromDays (.fin x) = .ok ⟨.fin (x * 86400 * 1000), false⟩ ∧
    (Duration.fromMilliseconds (.fin x)).bind Duration.toMilliseconds = .ok (.fin x) ∧
    (Duration.fromMinutes (.fin x)).bind Duration.toSeconds = .ok (.fin (x * 60)) ∧
    (Duration.fromHours (.fin x)).bind Duration.toMinutes = .ok (.fin (x * 60)) ∧
    (Duration.fromDays (.fin x)).bind Duration.toHours = .ok (.fin (x * 24)) := by
  have h3600 : x * 60 * 60 * 1000 = x * 3600 * 1000 := by ring
  have h86400 : x * 24 * 60 * 60 * 1000 = x * 86400 * 1000 := by ring
  refine ⟨Duration.fromMilliseconds_fin x h, Duration.fromSeconds_fin x h,
    Duration.fromMinutes_fin x h, ?_, ?_, ?_, ?_, ?_, ?_⟩
  · rw [Duration.fromHours_fin x h, h3600]
  · rw [Duration.fromDays_fin x h, h86400]
  · rw [Duration.fromMilliseconds_fin x h]
    simp [Except.bind, Duration.toMilliseconds]
  · rw [Duration.fromMinutes_fin x h]
    simp [Except.bind, Duration.toSeconds, JSNum.div]
  · rw [Duration.fromHours_fin x h]
    simp [Except.bind, Duration.toMinutes, Duration.toSeconds, JSNum.div, Except.map]
  · rw [Duration.fromDays_fin x h]
    simp [Except.bind, Duration.toHours, Duration.toMinutes, Duration.toSeconds,
      JSNum.div, Except.map]

/-- C4 witness: the factory equations and the unit chain at `x = 2`. -/
theorem C4_unit_factors_witness :
    Duration.fromSeconds (.fin 2) = .ok ⟨.fin (2 * 1000), false⟩ ∧
    (Duration.fromMinutes (.fin 2)).bind Duration.toSeconds = .ok (.fin (2 * 60)) :=
  ⟨(C4_unit_factors 2 (by decide)).2.1,
    (C4_unit_factors 2 (by decide)).2.2.2.2.2.2.1⟩

/-- C8: when the two operands' effective magnitudes are equal and they
are not both forever, `between` returns the first operand `a` itself,
whatever the random draw; in particular `between(a, a)` does for every
finite `a`. -/
theorem C8_between_equal_magnitudes (a b : Duration) (r : ℚ)
    (hnb : ¬(a.isForever = true ∧ b.isForever = true))
    (heq : a.effectiveMagnitude = b.effectiveMagnitude) :
    Duration.between a b r = .ok a := by
  rw [Duration.between]
  have hand : (a.isForever && b.isForever) = false := by
    cases ha : a.isForever <;> cases hb : b.isForever <;> simp_all
  rw [hand]
  simp only [Bool.false_eq_true, if_false, heq, JSNum.lt_self]

/-- C8 witness: `between(a, a)` at `a = fromMilliseconds(10)`'s value
returns `a` itself. -/
theorem C8_between_equal_magnitudes_witness :
    Duration.between ⟨.fin 10, false⟩ ⟨.fin 10, false⟩ 0 = .ok ⟨.fin 10, false⟩ :=
  C8_between_equal_magnitudes ⟨.fin 10, false⟩ ⟨.fin 10, false⟩ 0 (by decide) rfl

/-- C1 as stated is false on the code: adding a forever argument does not
yield a forever result, it raises the illegal-state error of the
argument's `toMilliseconds()` accessor. -/
theorem C1_counterexample :
    Duration.add ⟨.fin 0, false⟩ Duration.forever = .error .invalidOperation := by
  decide

/-- C1 amended: for every receiver `x` and every finite (non-forever)
argument `y`, `add` returns the Duration built by the constructor from
the sum of the magnitudes and the OR of the forever flags; hence the
result's forever flag is that OR, and a forever receiver yields a forever
result.  (A forever argument instead raises, see the counterexample.) -/
theorem C1_add_sum_and_or_flag (x y : Duration) (hy : y.isForever = false) :
    x.add y = .ok (Duration.ctor (x.milliseconds.add y.milliseconds)
        (x.isForever || y.isForever)) ∧
    (x.add y).map Duration.isForever = .ok (x.isForever || y.isForever) := by
  rw [Duration.isForever] at hy
  constructor
  · simp [Duration.add, Duration.toMilliseconds, hy, Except.map, Duration.isForever]
  · simp [Duration.add, Duration.toMilliseconds, hy, Except.map, Duration.isForever,
      Duration.ctor_foreverFlag]

/-- C1 witness: `forever().add(fromMilliseconds(5)'s value)` returns the
constructor's result for the summed magnitude and OR-ed flags, a forever
Duration. -/
theorem C1_add_sum_and_or_flag_witness :
    Duration.forever.add ⟨.fin 5, false⟩ =
      .ok (Duration.ctor (Duration.forever.milliseconds.add (JSNum.fin 5))
        (Duration.forever.isForever || (⟨.fin 5, false⟩ : Duration).isForever)) :=
  (C1_add_sum_and_or_flag Duration.forever ⟨.fin 5, false⟩ rfl).1

/-- C10: `add` treats the forever sentinel asymmetrically: a forever
receiver with a finite argument succeeds and the result is forever, while
a finite receiver with a forever argument raises the illegal-state error
coming from the argument's `toMilliseconds()`. -/
theorem C10_add_forever_asymmetry (d : Duration) (h : d.isForever = false) :
    Duration.forever.add d = .ok ⟨.posInf, true⟩ ∧
    (Duration.forever.add d).map Duration.isForever = .ok true ∧
    d.add Duration.forever = .error .invalidOperation := by
  rw [Duration.isForever] at h
  refine ⟨?_, ?_, ?_⟩
  · simp [Duration.add, Duration.toMilliseconds, h, Except.map,
      Duration.forever_foreverFlag, Duration.ctor, Duration.forever]
  · simp [Duration.add, Duration.toMilliseconds, h, Except.map,
      Duration.forever_foreverFlag, Duration.ctor, Duration.forever,
      Duration.isForever]
  · simp [Duration.add, Duration.toMilliseconds, Duration.forever_foreverFlag,
      Except.map]

/-- C10 witness: the asymmetry at the finite duration of 7 milliseconds. -/
theorem C10_add_forever_asymmetry_witness :
    Duration.forever.add ⟨.fin 7, false⟩ = .ok ⟨.posInf, true⟩ ∧
    (⟨.fin 7, false⟩ : Duration).add Duration.forever = .error .invalidOperation :=
  ⟨(C10_add_forever_asymmetry ⟨.fin 7, false⟩ rfl).1,
    (C10_add_forever_asymmetry ⟨.fin 7, false⟩ rfl).2.2⟩

/-- C2: on two finite durations with distinct non-negative magnitudes and
any draw `r` of the random source in `[0, 1)`, `between` returns a finite
Duration whose magnitude is exactly `low + randInt(high - low)` with
`low = min` and `high = max` of the two magnitudes, and that magnitude
lies in the half-open range `[low, high)`. -/
theorem C2_between_random_range (a b : Duration) (ma mb r : ℚ)
    (ha : a.isForever = false) (hb : b.isForever = false)
    (hma : a.milliseconds = .fin ma) (hmb : b.milliseconds = .fin mb)
    (h0a : 0 ≤ ma) (h0b : 0 ≤ mb) (hne : ma ≠ mb)
    (hr0 : 0 ≤ r) (hr1 : r < 1) :
    Duration.between a b r =
      .ok ⟨.fin (min ma mb + ((⌊r * (max ma mb - min ma mb)⌋ : ℤ) : ℚ)), false⟩ ∧
    min ma mb ≤ min ma mb + ((⌊r * (max ma mb - min ma mb)⌋ : ℤ) : ℚ) ∧
    min ma mb + ((⌊r * (max ma mb - min ma mb)⌋ : ℤ) : ℚ) < max ma mb := by
  rcases lt_or_gt_of_ne hne with hlt | hlt
  · rw [min_eq_left hlt.le, max_eq_right hlt.le]
    have hfl0 : (0 : ℚ) ≤ ((⌊r * (mb - ma)⌋ : ℤ) : ℚ) := by
      have hp : (0 : ℚ) ≤ r * (mb - ma) := mul_nonneg hr0 (by linarith)
      exact_mod_cast Int.floor_nonneg.2 hp
    have hfub : ((⌊r * (mb - ma)⌋ : ℤ) : ℚ) < mb - ma := by
      have h1 : ((⌊r * (mb - ma)⌋ : ℤ) : ℚ) ≤ r * (mb - ma) := Int.floor_le _
      have h2 : r * (mb - ma) < 1 * (mb - ma) :=
        mul_lt_mul_of_pos_right hr1 (by linarith)
      linarith
    refine ⟨?_, by linarith, by linarith⟩
    have hbet : Duration.between a b r =
        Duration.fromMilliseconds (.fin (((⌊r * (mb - ma)⌋ : ℤ) : ℚ) + ma)) := by
      simp only [Duration.between, ha, hb, Bool.and_self, Bool.false_and,
        Bool.false_eq_true, if_false, Duration.effectiveMagnitude, hma, hmb,
        JSNum.lt, JSNum.sub, Duration.randInt, JSNum.add, hlt, decide_eq_true_eq,
        if_true, hlt.asymm]
    rw [hbet, Duration.fromMilliseconds_fin _ (by linarith), add_comm]
  · rw [min_eq_right hlt.le, max_eq_left hlt.le]
    have hfl0 : (0 : ℚ) ≤ ((⌊r * (ma - mb)⌋ : ℤ) : ℚ) := by
      have hp : (0 : ℚ) ≤ r * (ma - mb) := mul_nonneg hr0 (by linarith)
      exact_mod_cast Int.floor_nonneg.2 hp
    have hfub : ((⌊r * (ma - mb)⌋ : ℤ) : ℚ) < ma - mb := by
      have h1 : ((⌊r * (ma - mb)⌋ : ℤ) : ℚ) ≤ r * (ma - mb) := Int.floor_le _
      have h2 : r * (ma - mb) < 1 * (ma - mb) :=
        mul_lt_mul_of_pos_right hr1 (by linarith)
      linarith
    refine ⟨?_, by linarith, by linarith⟩
    have hbet : Duration.between a b r =
        Duration.fromMilliseconds (.fin (((⌊r * (ma - mb)⌋ : ℤ) : ℚ) + mb)) := by
      simp only [Duration.between, ha, hb, Bool.and_self, Bool.false_and,
        Bool.false_eq_true, if_false, Duration.effectiveMagnitude, hma, hmb,
        JSNum.lt, JSNum.sub, Duration.randInt, JSNum.add, hlt, decide_eq_true_eq,
        if_true, hlt.asymm]
    rw [hbet, Duration.fromMilliseconds_fin _ (by linarith), add_comm]

/-- C2 witness: `between(fromMilliseconds(10), fromMilliseconds(20))`
with draw `r = 0` returns the magnitude `min + floor(0 * span)`, which
lies in `[10, 20)`. -/
theorem C2_between_random_range_witness :
    Duration.between ⟨.fin 10, false⟩ ⟨.fin 20, false⟩ 0 =
      .ok ⟨.fin (min 10 20 + ((⌊(0 : ℚ) * (max 10 20 - min 10 20)⌋ : ℤ) : ℚ)), false⟩ ∧
    min 10 20 ≤ min 10 20 + ((⌊(0 : ℚ) * (max 10 20 - min 10 20)⌋ : ℤ) : ℚ) ∧
    min 10 20 + ((⌊(0 : ℚ) * (max 10 20 - min 10 20)⌋ : ℤ) : ℚ) < max 10 20 :=
  C2_between_random_range ⟨.fin 10, false⟩ ⟨.fin 20, false⟩ 10 20 0 rfl rfl rfl rfl
    (by decide) (by decide) (by decide) (by decide) (by decide)

/-! ### Validity lemmas for the reachability invariant -/

theorem Duration.mk_false_valid (q : ℚ) (h : 0 ≤ q) :
    Duration.valid ⟨JSNum.fin q, false⟩ :=
  ⟨q, rfl, h⟩

theorem Duration.fromMilliseconds_ok_valid (q : ℚ) (d : Duration)
    (h : Duration.fromMilliseconds (.fin q) = .ok d) : d.valid := by
  by_cases hq : q < 0
  · simp [Duration.fromMilliseconds, JSNum.isNeg, hq] at h
  · rw [Duration.fromMilliseconds_fin q (not_lt.1 hq)] at h
    injection h with h2
    subst h2
    exact Duration.mk_false_valid q (not_lt.1 hq)

theorem Duration.fromSeconds_ok_valid (q : ℚ) (d : Duration)
    (h : Duration.fromSeconds (.fin q) = .ok d) : d.valid := by
  by_cases hq : q < 0
  · simp [Duration.fromSeconds, JSNum.isNeg, hq] at h
  · rw [Duration.fromSeconds_fin q (not_lt.1 hq)] at h
    injection h with h2
    subst h2
    exact Duration.mk_false_valid (q * 1000) (mul_nonneg (not_lt.1 hq) (by norm_num))

theorem Duration.fromMinutes_ok_valid (q : ℚ) (d : Duration)
    (h : Duration.fromMinutes (.fin q) = .ok d) : d.valid := by
  by_cases hq : q < 0
  · simp [Duration.fromMinutes, JSNum.isNeg, hq] at h
  · rw [Duration.fromMinutes, if_neg (by simp [JSNum.isNeg, hq])] at h
    exact Duration.fromSeconds_ok_valid (q * 60) d (by simpa [JSNum.mul] using h)

theorem Duration.fromHours_ok_valid (q : ℚ) (d : Duration)
    (h : Duration.fromHours (.fin q) = .ok d) : d.valid := by
  by_cases hq : q < 0
  · simp [Duration.fromHours, JSNum.isNeg, hq] at h
  · rw [Duration.fromHours, if_neg (by simp [JSNum.isNeg, hq])] at h
    exact Duration.fromMinutes_ok_valid (q * 60) d (by simpa [JSNum.mul] using h)

theorem Duration.fromDays_ok_valid (q : ℚ) (d : Duration)
    (h : Duration.fromDays (.fin q) = .ok d) : d.valid := by
  by_cases hq : q < 0
  · simp [Duration.fromDays, JSNum.isNeg, hq] at h
  · rw [Duration.fromDays, if_neg (by simp [JSNum.isNeg, hq])] at h
    exact Duration.fromHours_ok_valid (q * 24) d (by simpa [JSNum.mul] using h)

theorem Duration.add_ok_valid (x y d : Duration) (hvx : x.valid) (hvy : y.valid)
    (h : x.add y = .ok d) : d.valid := by
  rw [Duration.add, Duration.toMilliseconds] at h
  cases hyf : y.foreverFlag
  · rw [hyf] at h
    simp only [Bool.false_eq_true, if_false, Except.map] at h
    injection h with h2
    subst h2
    cases hxf : x.foreverFlag
    · rw [Duration.valid, if_neg (by simp [hxf])] at hvx
      rw [Duration.valid, if_neg (by simp [hyf])] at hvy
      obtain ⟨qa, hqa, ha0⟩ := hvx
      obtain ⟨qb, hqb, hb0⟩ := hvy
      rw [hqa, hqb]
      exact Duration.mk_false_valid (qa + qb) (add_nonneg ha0 hb0)
    · exact Duration.ctor_true_valid _
  · rw [hyf] at h
    simp [Except.map] at h

theorem Duration.multiply_ok_valid (x : Duration) (t : ℚ) (d : Duration)
    (hvx : x.valid) (h : x.multiply t = .ok d) : d.valid := by
  rw [Duration.multiply] at h
  by_cases ht : 0 < t
  · rw [if_pos ht] at h
    injection h with h2
    subst h2
    cases hxf : x.foreverFlag
    · rw [Duration.valid, if_neg (by simp [hxf])] at hvx
      obtain ⟨qa, hqa, ha0⟩ := hvx
      rw [hqa]
      exact Duration.mk_false_valid (qa * t) (mul_nonneg ha0 ht.le)
    · exact Duration.ctor_true_valid _
  · rw [if_neg ht] at h
    exact Except.noConfusion h

theorem Duration.between_ok_valid (a b : Duration) (r : ℚ) (d : Duration)
    (hva : a.valid) (hvb : b.valid)
    (h : Duration.between a b r = .ok d) : d.valid := by
  simp only [Duration.between] at h
  by_cases hf : (a.isForever && b.isForever) = true
  · rw [if_pos hf] at h
    injection h with h2
    exact h2 ▸ Duration.forever_valid
  · rw [if_neg hf] at h
    obtain ⟨la, hla⟩ : ∃ la, a.effectiveMagnitude = .fin la := by
      rw [Duration.effectiveMagnitude]
      cases hA : a.isForever
      · rw [Duration.isForever] at hA
        rw [Duration.valid, if_neg (by simp [hA])] at hva
        obtain ⟨q, hq, _⟩ := hva
        simp [Duration.isForever, hA]
        exact ⟨q, hq⟩
      · exact ⟨maxValue, by simp [hA]⟩
    obtain ⟨lb, hlb⟩ : ∃ lb, b.effectiveMagnitude = .fin lb := by
      rw [Duration.effectiveMagnitude]
      cases hB : b.isForever
      · rw [Duration.isForever] at hB
        rw [Duration.valid, if_neg (by simp [hB])] at hvb
        obtain ⟨q, hq, _⟩ := hvb
        simp [Duration.isForever, hB]
        exact ⟨q, hq⟩
      · exact ⟨maxValue, by simp [hB]⟩
    rw [hla, hlb] at h
    simp only [JSNum.lt, JSNum.sub, Duration.randInt, JSNum.add,
      decide_eq_true_eq] at h
    rcases lt_trichotomy la lb with h1 | h1 | h1
    · rw [if_pos h1] at h
      exact Duration.fromMilliseconds_ok_valid _ d h
    · rw [if_neg (by simp [h1]), if_neg (by simp [h1])] at h
      injection h with h2
      exact h2 ▸ hva
    · rw [if_neg (by simp [h1.asymm]), if_pos h1] at h
      exact Duration.fromMilliseconds_ok_valid _ d h

/-- C3: every Duration reachable through the public factories and
operations satisfies the invariant: a set forever flag comes with a
stored magnitude of positive infinity, a cleared one with a finite
non-negative magnitude (numeric inputs to the factories range over the
spec's non-negative reals, modelled as rationals). -/
theorem C3_reachable_invariant (d : Duration) (h : Reachable d) : d.valid := by
  induction h with
  | fromMilliseconds x d h => exact Duration.fromMilliseconds_ok_valid x d h
  | fromSeconds x d h => exact Duration.fromSeconds_ok_valid x d h
  | fromMinutes x d h => exact Duration.fromMinutes_ok_valid x d h
  | fromHours x d h => exact Duration.fromHours_ok_valid x d h
  | fromDays x d h => exact Duration.fromDays_ok_valid x d h
  | forever => exact Duration.forever_valid
  | add x y d hx hy hadd ihx ihy => exact Duration.add_ok_valid x y d ihx ihy hadd
  | multiply x t d hx hmul ihx => exact Duration.multiply_ok_valid x t d ihx hmul
  | between a b r d hA hB hbet ihA ihB =>
      exact Duration.between_ok_valid a b r d ihA ihB hbet

/-- C3 witness: the invariant at the reachable duration `forever()`. -/
theorem C3_reachable_invariant_witness : Duration.forever.valid :=
  C3_reachable_invariant Duration.forever Reachable.forever
